import Mathlib

/-!
Verification of the clinical-trials search backend (app.py).

The program is a single Flask application exposing one pipeline function,
fetch_trials_from_clinicaltrials_gov, and a route handler search_trials.
This file gives a shallow embedding of that code:

* Python datetime values are modelled as integers counting seconds, via the
  proleptic Gregorian ordinal (toordinal) times 86400; datetime.today() is an
  arbitrary integer parameter today, so the cutoff
  datetime.today() - timedelta(days=30*months_back) becomes
  today - 86400 * (30 * months_back).
* datetime.strptime(s, "%Y-%m-%d") is modelled by parseDateYMD, mirroring
  CPython: the string must split on the dash separator into a 4-digit year,
  a 1-2 digit month in 1..12 and a 1-2 digit day in 1..31, and the
  datetime constructor then checks the day against the month length.
* The upstream registry is modelled as a function api : Nat -> FetchResult
  giving the outcome of the k-th HTTP request of the pagination loop: either
  a failure (connection error, timeout, HTTP error status, malformed JSON -
  every such exception is caught by the except clauses and breaks the loop)
  or a page holding a list of studies and an optional nextPageToken.
* The while-True pagination loop becomes the structural recursion fetchLoop
  on the remaining page budget (max_pages - page_count); it returns the
  collected records together with the number of requests issued.
* list.sort(key=get_sort_key, reverse=True) is the stable descending
  sort of Python; it is modelled by List.mergeSort with the comparison
  le a b := get_sort_key b <= get_sort_key a, which produces the same
  unique stable non-increasing ordering.
* The route handler search_trials is modelled as a pure function over a
  payload model; Python dict insertion-order semantics are modelled by
  dictInsert on association lists.
-/

/-- Gregorian calendar date, the result of a successful strptime parse. -/
structure Date where
  year : Nat
  month : Nat
  day : Nat
deriving DecidableEq

/-- Gregorian leap-year test, as in the Python calendar and datetime modules. -/
def isLeapYear (y : Nat) : Bool :=
  y % 4 == 0 && (y % 100 != 0 || y % 400 == 0)

/-- Number of days in a month, as validated by the datetime constructor. -/
def daysInMonth (y m : Nat) : Nat :=
  if m = 2 then (if isLeapYear y then 29 else 28)
  else if m = 4 ∨ m = 6 ∨ m = 9 ∨ m = 11 then 30 else 31

/-- Days in year y strictly before month m (the internal table of Python). -/
def daysBeforeMonth (y m : Nat) : Nat :=
  let base : Nat :=
    match m with
    | 1 => 0 | 2 => 31 | 3 => 59 | 4 => 90 | 5 => 120 | 6 => 151
    | 7 => 181 | 8 => 212 | 9 => 243 | 10 => 273 | 11 => 304 | _ => 334
  base + (if 3 ≤ m then (if isLeapYear y then 1 else 0) else 0)

/-- Proleptic Gregorian ordinal of a date, as date.toordinal() in Python:
day 1 is 0001-01-01. -/
def toordinal (dt : Date) : Nat :=
  let y := dt.year - 1
  365 * y + y / 4 + y / 400 - y / 100 + daysBeforeMonth dt.year dt.month + dt.day

/-- The datetime value (in seconds) of a date parsed by strptime: midnight of
that day. Comparisons of Python datetimes coincide with integer comparisons
of these values. -/
def dateValue (dt : Date) : Int :=
  (toordinal dt : Int) * 86400

/-- The value of datetime.min, i.e. midnight of 0001-01-01 (ordinal 1). -/
def datetime_min : Int := 86400

/-- ASCII decimal digit test, as the regex class matching strptime fields. -/
def isDigitChar (c : Char) : Bool :=
  48 ≤ c.toNat && c.toNat ≤ 57

/-- Numeric value of a digit string, as int() applied to a matched field. -/
def digitsToNat (cs : List Char) : Nat :=
  cs.foldl (fun n c => 10 * n + (c.toNat - 48)) 0

/-- Split a character list on the dash separator, as the dashes of the
format "%Y-%m-%d" partition the input string. -/
def splitOnDash : List Char → List (List Char)
  | [] => [[]]
  | c :: rest =>
    if c = '-' then [] :: splitOnDash rest
    else
      match splitOnDash rest with
      | [] => [[c]]
      | g :: gs => (c :: g) :: gs

/-- Model of datetime.strptime(s, "%Y-%m-%d"): the string must be exactly a
4-digit year, a dash, a 1-2 digit month with value 1..12, a dash, and a
1-2 digit day with value 1..31 (the CPython _strptime regex); the datetime
constructor then requires year at least 1 and the day to fit the month.
Returns none exactly when strptime raises ValueError. -/
def parseDateYMD (s : String) : Option Date :=
  match splitOnDash s.data with
  | [ys, ms, ds] =>
    if ys.length = 4 ∧ ys.all isDigitChar ∧
       (ms.length = 1 ∨ ms.length = 2) ∧ ms.all isDigitChar ∧
       (ds.length = 1 ∨ ds.length = 2) ∧ ds.all isDigitChar then
      let y := digitsToNat ys
      let m := digitsToNat ms
      let d := digitsToNat ds
      if 1 ≤ y ∧ 1 ≤ m ∧ m ≤ 12 ∧ 1 ≤ d ∧ d ≤ daysInMonth y m then
        some ⟨y, m, d⟩
      else none
    else none
  | _ => none

/-- Model of the lastUpdatePostDateStruct JSON object: an object that may
hold a date string. A missing field is none, matching dict.get defaults. -/
structure DateStruct where
  date : Option String := none
deriving DecidableEq

/-- Model of the statusModule JSON object. -/
structure StatusModule where
  lastUpdatePostDateStruct : Option DateStruct := none
  overallStatus : Option String := none
  studyFirstPostDateStruct : Option DateStruct := none
deriving DecidableEq

/-- Model of the identificationModule JSON object. -/
structure IdentificationModule where
  nctId : Option String := none
  officialTitle : Option String := none
  briefTitle : Option String := none
  acronym : Option String := none
deriving DecidableEq

/-- Model of the conditionsModule JSON object. -/
structure ConditionsModule where
  conditions : Option (List String) := none
deriving DecidableEq

/-- Model of one entry of the interventions JSON array. -/
structure Intervention where
  name : Option String := none
deriving DecidableEq

/-- Model of the armsInterventionsModule JSON object. -/
structure ArmsInterventionsModule where
  interventions : Option (List Intervention) := none
deriving DecidableEq

/-- Model of the designModule JSON object. -/
structure DesignModule where
  studyType : Option String := none
  phases : Option (List String) := none
deriving DecidableEq

/-- Model of the protocolSection JSON object. -/
structure ProtocolSection where
  statusModule : Option StatusModule := none
  identificationModule : Option IdentificationModule := none
  conditionsModule : Option ConditionsModule := none
  armsInterventionsModule : Option ArmsInterventionsModule := none
  designModule : Option DesignModule := none
deriving DecidableEq

/-- Model of one study record of an API page. -/
structure Study where
  protocolSection : Option ProtocolSection := none
deriving DecidableEq

/-- One normalized output record; the fields are, in order, the dict keys
"NCT ID", "Title", "Study First Post Date", "Last Update Post Date",
"Acronym", "Overall Status", "Conditions", "Interventions", "Study Type",
"Phases" built at the end of the per-study loop body. -/
structure TrialRecord where
  nctId : String
  title : String
  studyFirstPostDate : String
  lastUpdatePostDate : String
  acronym : String
  overallStatus : String
  conditions : String
  interventions : String
  studyType : String
  phases : String
deriving DecidableEq

/-- Model of the Python expression sep.join(l) with separator ", ". -/
def joinComma : List String → String
  | [] => ""
  | [x] => x
  | x :: rest => x ++ ", " ++ joinComma rest

/-- The raw last-update date string of a study, as extracted through the
chain statusModule, lastUpdatePostDateStruct, date of chained dict.get
calls: the empty string when any level is missing. -/
def lastUpdateStr (study : Study) : String :=
  (((study.protocolSection.getD {}).statusModule.getD
      {}).lastUpdatePostDateStruct.getD {}).date.getD ""

/-- The body of the per-study loop of fetch_trials_from_clinicaltrials_gov:
extract the last-update date string; skip the study (none) when it is empty,
fails to parse, or parses to a datetime below the cutoff; otherwise build
the output record with the documented field fallbacks. -/
def processStudy (date_cutoff : Int) (study : Study) : Option TrialRecord :=
  let protocol_section := study.protocolSection.getD {}
  let status_module := protocol_section.statusModule.getD {}
  let lastUpdatePostDate_str :=
    (status_module.lastUpdatePostDateStruct.getD {}).date.getD ""
  if lastUpdatePostDate_str = "" then none
  else
    match parseDateYMD lastUpdatePostDate_str with
    | none => none
    | some last_update_date_obj =>
      if dateValue last_update_date_obj < date_cutoff then none
      else
        let identification_module := protocol_section.identificationModule.getD {}
        let conditions_module := protocol_section.conditionsModule.getD {}
        let arms_interventions_module :=
          protocol_section.armsInterventionsModule.getD {}
        let design_module := protocol_section.designModule.getD {}
        let nctId := identification_module.nctId.getD "N/A"
        let title := identification_module.officialTitle.getD
          (identification_module.briefTitle.getD "No title provided")
        let acronym := identification_module.acronym.getD "N/A"
        let overallStatus := status_module.overallStatus.getD "N/A"
        let studyType := design_module.studyType.getD "N/A"
        let studyFirstPostDate :=
          (status_module.studyFirstPostDateStruct.getD {}).date.getD "N/A"
        let conditions :=
          joinComma (conditions_module.conditions.getD ["No conditions listed"])
        let interventions_list := arms_interventions_module.interventions.getD []
        let interventions :=
          if interventions_list.isEmpty then "No interventions listed"
          else joinComma (interventions_list.map
            (fun interv => interv.name.getD "No intervention name listed"))
        let phases := joinComma (design_module.phases.getD ["Not Available"])
        some ⟨nctId, title, studyFirstPostDate, lastUpdatePostDate_str, acronym,
          overallStatus, conditions, interventions, studyType, phases⟩

/-- Records kept from the study list of one page. -/
def pageRecords (date_cutoff : Int) (studies : List Study) : List TrialRecord :=
  studies.filterMap (processStudy date_cutoff)

/-- One page of the JSON response of the registry: the studies list (empty
when the studies key is missing) and the optional nextPageToken. -/
structure ApiPage where
  studies : List Study
  nextPageToken : Option String
deriving DecidableEq

/-- Outcome of one HTTP request of the pagination loop. failure covers every
caught exception: connection error, timeout, HTTP error status raised by
raise_for_status, malformed JSON body, and any other exception. -/
inductive FetchResult where
  | failure
  | success (page : ApiPage)
deriving DecidableEq

/-- The fixed page ceiling max_pages = 5 of the pagination loop. -/
def max_pages : Nat := 5

/-- The while-True pagination loop. The argument i is the index of the next
request; rem is the remaining page budget max_pages - page_count. Returns
the records collected from this point on, together with the number of
further requests issued. A failure, an empty studies list, or a missing
nextPageToken ends the loop after the current request; exhausting the page
budget (rem = 0 after an increment of page_count) ends it without a further
request. -/
def fetchLoop (api : Nat → FetchResult) (date_cutoff : Int) :
    Nat → Nat → List TrialRecord × Nat
  | _, 0 => ([], 0)
  | i, rem + 1 =>
    match api i with
    | .failure => ([], 1)
    | .success page =>
      if page.studies.isEmpty then ([], 1)
      else
        let recs := pageRecords date_cutoff page.studies
        match page.nextPageToken with
        | none => (recs, 1)
        | some _ =>
          let rest := fetchLoop api date_cutoff (i + 1) rem
          (recs ++ rest.1, rest.2 + 1)

/-- The recency cutoff datetime.today() - timedelta(days=30*months_back),
with today the integer value of datetime.today(). -/
def trialsCutoff (today months_back : Int) : Int :=
  today - 86400 * (30 * months_back)

/-- The sort key of a collected record: re-parse its "Last Update Post Date"
string; on ValueError fall back to datetime.min. -/
def get_sort_key (item : TrialRecord) : Int :=
  match parseDateYMD item.lastUpdatePostDate with
  | some d => dateValue d
  | none => datetime_min

/-- The comparison used by the reverse sort: a may precede b exactly when
the sort key of a is at least that of b. -/
def leKey (a b : TrialRecord) : Bool :=
  decide (get_sort_key b ≤ get_sort_key a)

/-- Model of data_list.sort(key=get_sort_key, reverse=True): the stable
non-increasing reordering by sort key. -/
def sortByLastUpdateDesc (l : List TrialRecord) : List TrialRecord :=
  l.mergeSort leKey

/-- The list collected by the pagination loop before sorting. -/
def collectedTrials (api : Nat → FetchResult) (today months_back : Int) :
    List TrialRecord :=
  (fetchLoop api (trialsCutoff today months_back) 0 max_pages).1

/-- Number of HTTP requests the pagination loop issues. -/
def fetchRequestCount (api : Nat → FetchResult) (date_cutoff : Int) : Nat :=
  (fetchLoop api date_cutoff 0 max_pages).2

/-- The pipeline fetch_trials_from_clinicaltrials_gov: run the pagination
loop with the recency cutoff, then sort the collected records by last-update
date descending. -/
def fetch_trials_from_clinicaltrials_gov (api : Nat → FetchResult)
    (today months_back_filter : Int) : List TrialRecord :=
  sortByLastUpdateDesc
    (fetchLoop api (trialsCutoff today months_back_filter) 0 max_pages).1

/-- One element of the query_terms JSON array: a string, or a value of any
other JSON type (skipped by the isinstance check). -/
inductive JsonItem where
  | str (s : String)
  | nonStr
deriving DecidableEq

/-- The value found under the query_terms key: either not a list at all, or
a list of JSON items. -/
inductive QueryTermsValue where
  | notList
  | list (items : List JsonItem)
deriving DecidableEq

/-- The JSON payload of a POST /api/search_trials request: the query_terms
and months_back keys may each be absent. -/
structure SearchPayload where
  query_terms : Option QueryTermsValue := none
  months_back : Option Int := none

/-- Whitespace test of Python str.strip(). -/
def isSpaceChar (c : Char) : Bool :=
  c = ' ' || c = '\t' || c = '\n' || c = '\x0d' || c = '\x0b' || c = '\x0c'

/-- Model of Python term.strip(): remove leading and trailing whitespace. -/
def pyStrip (s : String) : String :=
  ⟨((s.data.dropWhile isSpaceChar).reverse.dropWhile isSpaceChar).reverse⟩

/-- The list comprehension cleaning query_terms: keep term.strip() for each
element that is a string and is non-empty after stripping. -/
def cleanTerms (items : List JsonItem) : List String :=
  items.filterMap fun it =>
    match it with
    | .str term => if pyStrip term = "" then none else some (pyStrip term)
    | .nonStr => none

/-- Insertion into a Python dict modelled as an association list: an
existing key keeps its position and gets the new value, a new key is
appended. -/
def dictInsert (m : List (String × List TrialRecord)) (k : String)
    (v : List TrialRecord) : List (String × List TrialRecord) :=
  if m.any (fun p => p.1 = k) then
    m.map (fun p => if p.1 = k then (k, v) else p)
  else m ++ [(k, v)]

/-- Response of the search_trials route: an HTTP error with a status code
and message, or the JSON mapping from each term to its record list. -/
inductive SearchResponse where
  | error (status : Nat) (message : String)
  | ok (results : List (String × List TrialRecord))

/-- The route handler search_trials. The upstream environment apiFor gives,
per condition term, the outcomes of the requests of that term; today is the value
of datetime.today() during the request. -/
def search_trials (payload : SearchPayload)
    (apiFor : String → Nat → FetchResult) (today : Int) : SearchResponse :=
  let query_terms_raw := payload.query_terms.getD (.list [])
  let months_back := payload.months_back.getD 3
  match query_terms_raw with
  | .notList =>
    .error 400
      "Invalid format for \x27query_terms\x27. Expected a list of strings."
  | .list items =>
    let query_terms := cleanTerms items
    if query_terms.isEmpty then
      .error 400 "Please enter valid condition(s) to search."
    else
      .ok (query_terms.foldl
        (fun m term =>
          dictInsert m term
            (fetch_trials_from_clinicaltrials_gov (apiFor term) today
              months_back))
        [])

/-- A successful strptime parse yields positive year, month and day. -/
theorem parseDateYMD_fields {s : String} {d : Date}
    (h : parseDateYMD s = some d) : 1 ≤ d.year ∧ 1 ≤ d.month ∧ 1 ≤ d.day := by
  simp only [parseDateYMD] at h
  split at h
  · split at h
    · split at h
      · rename_i hrange
        cases h
        exact ⟨hrange.1, hrange.2.1, hrange.2.2.2.1⟩
      · cases h
    · cases h
  · cases h

/-- The ordinal of any date with positive day is at least 1. -/
theorem one_le_toordinal {dt : Date} (h : 1 ≤ dt.day) : 1 ≤ toordinal dt := by
  simp only [toordinal]
  omega

/-- A parsed date never has a datetime value below datetime.min. -/
theorem datetime_min_le_dateValue {s : String} {d : Date}
    (h : parseDateYMD s = some d) : datetime_min ≤ dateValue d := by
  have hd := (parseDateYMD_fields h).2.2
  have h1 : 1 ≤ toordinal d := one_le_toordinal hd
  unfold dateValue datetime_min
  have : (1 : Int) ≤ (toordinal d : Int) := by exact_mod_cast h1
  nlinarith

/-- Every sort key is at least the fallback value datetime.min. -/
theorem datetime_min_le_get_sort_key (r : TrialRecord) :
    datetime_min ≤ get_sort_key r := by
  unfold get_sort_key
  split
  · exact datetime_min_le_dateValue (by assumption)
  · exact le_refl _

/-- A study kept by the per-study loop body stores the very date string that
passed the filter: it re-parses successfully and meets the cutoff. -/
theorem processStudy_some {c : Int} {s : Study} {r : TrialRecord}
    (h : processStudy c s = some r) :
    ∃ d, parseDateYMD r.lastUpdatePostDate = some d ∧ c ≤ dateValue d := by
  simp only [processStudy] at h
  split at h
  · cases h
  · split at h
    · cases h
    · rename_i dobj hparse
      split at h
      · cases h
      · rename_i hlt
        cases h
        exact ⟨dobj, hparse, by omega⟩

/-- Every record collected by the pagination loop was produced by the
per-study loop body for some study. -/
theorem mem_fetchLoop {api : Nat → FetchResult} {c : Int} {r : TrialRecord} :
    ∀ {rem i : Nat}, r ∈ (fetchLoop api c i rem).1 →
      ∃ s : Study, processStudy c s = some r := by
  intro rem
  induction rem with
  | zero => intro i h; simp [fetchLoop] at h
  | succ n ih =>
    intro i h
    rw [fetchLoop] at h
    split at h
    · simp at h
    · split at h
      · simp at h
      · split at h
        · rename_i page hsome _ _
          obtain ⟨s, _, hs⟩ := List.mem_filterMap.mp h
          exact ⟨s, hs⟩
        · rename_i page hsome _ _ _
          rcases List.mem_append.mp h with h1 | h2
          · obtain ⟨s, _, hs⟩ := List.mem_filterMap.mp h1
            exact ⟨s, hs⟩
          · exact ih h2

/-- The reverse-sort comparison is transitive. -/
theorem leKey_trans : ∀ a b c : TrialRecord, leKey a b → leKey b c → leKey a c := by
  intro a b c hab hbc
  simp only [leKey, decide_eq_true_eq] at *
  exact le_trans hbc hab

/-- The reverse-sort comparison is total. -/
theorem leKey_total : ∀ a b : TrialRecord, leKey a b || leKey b a := by
  intro a b
  simp only [leKey, Bool.or_eq_true, decide_eq_true_eq]
  exact le_total _ _

/-- The sorted list is a permutation of its input. -/
theorem sortByLastUpdateDesc_perm (l : List TrialRecord) :
    List.Perm (sortByLastUpdateDesc l) l :=
  List.mergeSort_perm l leKey

/-- The sorted list has non-increasing sort keys. -/
theorem sortByLastUpdateDesc_pairwise (l : List TrialRecord) :
    (sortByLastUpdateDesc l).Pairwise
      (fun a b => get_sort_key b ≤ get_sort_key a) := by
  have h := List.sorted_mergeSort leKey_trans leKey_total l
  exact h.imp (by intro a b hab; simpa [leKey] using hab)

/-- Stability of the reverse sort: the subsequence of records having any
fixed sort key is unchanged by sorting. -/
theorem sortByLastUpdateDesc_filter (l : List TrialRecord) (k : Int) :
    (sortByLastUpdateDesc l).filter (fun r => decide (get_sort_key r = k)) =
      l.filter (fun r => decide (get_sort_key r = k)) := by
  set p : TrialRecord → Bool := fun r => decide (get_sort_key r = k) with hp
  have hkey : ∀ a, p a = true → get_sort_key a = k := by
    intro a ha; simpa [hp] using ha
  have hpair : (l.filter p).Pairwise (fun a b => leKey a b = true) := by
    apply List.pairwise_of_forall_mem_list
    intro a ha b hb
    have ha' := hkey a (List.of_mem_filter ha)
    have hb' := hkey b (List.of_mem_filter hb)
    simp [leKey, ha', hb']
  have hsub : List.Sublist (l.filter p) (List.mergeSort l leKey) :=
    List.sublist_mergeSort leKey_trans leKey_total hpair (List.filter_sublist l)
  have hsub2 : List.Sublist (l.filter p) ((List.mergeSort l leKey).filter p) := by
    have h2 := hsub.filter p
    rwa [List.filter_filter, show (fun a => p a && p a) = p from by
      funext a; exact Bool.and_self _] at h2
  have hperm : List.Perm ((List.mergeSort l leKey).filter p) (l.filter p) :=
    (List.mergeSort_perm l leKey).filter p
  exact (hsub2.eq_of_length hperm.length_eq.symm).symm

/-- In a list sorted by non-increasing keys, every record from the first one
whose key is not above datetime.min onward has key exactly datetime.min. -/
theorem sorted_min_suffix :
    ∀ l : List TrialRecord,
      l.Pairwise (fun a b => get_sort_key b ≤ get_sort_key a) →
      ∀ q ∈ l.dropWhile (fun x => decide (datetime_min < get_sort_key x)),
        get_sort_key q = datetime_min := by
  intro l
  induction l with
  | nil => intro _ q hq; simp at hq
  | cons a t ih =>
    intro hpair q hq
    rw [List.dropWhile_cons] at hq
    by_cases hcond : datetime_min < get_sort_key a
    · rw [if_pos (by simpa using hcond)] at hq
      exact ih hpair.of_cons q hq
    · rw [if_neg (by simpa using hcond)] at hq
      have ha : get_sort_key a = datetime_min :=
        le_antisymm (by omega) (datetime_min_le_get_sort_key a)
      rcases List.mem_cons.mp hq with rfl | hqt
      · exact ha
      · have := (List.pairwise_cons.mp hpair).1 q hqt
        exact le_antisymm (ha ▸ this) (datetime_min_le_get_sort_key q)

/-- Termination condition of the loop at a page: it has zero records or
carries no continuation token. -/
def stopsAt (pages : Nat → ApiPage) (j : Nat) : Prop :=
  (pages j).studies = [] ∨ (pages j).nextPageToken = none

/-- The loop never issues more requests than its page budget. -/
theorem fetchLoop_count_le (api : Nat → FetchResult) (c : Int) :
    ∀ rem i, (fetchLoop api c i rem).2 ≤ rem := by
  intro rem
  induction rem with
  | zero => intro i; simp [fetchLoop]
  | succ n ih =>
    intro i
    rw [fetchLoop]
    split
    · simp
    · split
      · simp
      · split
        · simp
        · simpa using Nat.succ_le_succ (ih (i + 1))

/-- Characterization of the request count on an upstream that never fails:
at least one request is made, no page before the last requested one
triggers a stop, and when the count is below the budget the last requested
page does trigger a stop. -/
theorem fetchLoop_count_success (api : Nat → FetchResult) (c : Int)
    (pages : Nat → ApiPage) (hall : ∀ j, api j = .success (pages j)) :
    ∀ rem i, 1 ≤ rem →
      1 ≤ (fetchLoop api c i rem).2 ∧
      (∀ m, m < (fetchLoop api c i rem).2 - 1 → ¬ stopsAt pages (i + m)) ∧
      ((fetchLoop api c i rem).2 < rem →
        stopsAt pages (i + ((fetchLoop api c i rem).2 - 1))) := by
  intro rem
  induction rem with
  | zero => intro i h; omega
  | succ n ih =>
    intro i _
    by_cases hS : (pages i).studies.isEmpty
    · have hunf : fetchLoop api c i (n + 1) = ([], 1) := by
        rw [fetchLoop, hall i]
        dsimp only
        rw [if_pos hS]
      rw [hunf]
      refine ⟨le_refl _, by omega, fun _ => ?_⟩
      simp only [Nat.add_zero]
      exact Or.inl (List.isEmpty_iff.mp hS)
    · cases hT : (pages i).nextPageToken with
      | none =>
        have hunf : fetchLoop api c i (n + 1) =
            (pageRecords c (pages i).studies, 1) := by
          rw [fetchLoop, hall i]
          dsimp only
          rw [if_neg hS]
          rw [hT]
        rw [hunf]
        refine ⟨le_refl _, by omega, fun _ => ?_⟩
        simp only [Nat.add_zero]
        exact Or.inr hT
      | some t =>
        cases n with
        | zero =>
          have hunf : fetchLoop api c i 1 =
              (pageRecords c (pages i).studies ++ [], 1) := by
            rw [fetchLoop, hall i]
            dsimp only
            rw [if_neg hS]
            rw [hT]
            rfl
          rw [hunf]
          exact ⟨le_refl _, by omega, by omega⟩
        | succ n' =>
          have hunf : fetchLoop api c i (n' + 1 + 1) =
              (pageRecords c (pages i).studies ++
                (fetchLoop api c (i + 1) (n' + 1)).1,
               (fetchLoop api c (i + 1) (n' + 1)).2 + 1) := by
            rw [fetchLoop, hall i]
            dsimp only
            rw [if_neg hS]
            rw [hT]
          rw [hunf]
          obtain ⟨h1, h2, h3⟩ := ih (i + 1) (by omega)
          refine ⟨by omega, ?_, ?_⟩
          · intro m hm
            cases m with
            | zero =>
              simp only [Nat.add_zero]
              intro hstop
              rcases hstop with h | h
              · exact hS (List.isEmpty_iff.mpr h)
              · rw [hT] at h; cases h
            | succ m' =>
              rw [show i + (m' + 1) = i + 1 + m' from by omega]
              exact h2 m' (by omega)
          · intro hlt
            rw [show i + ((fetchLoop api c (i + 1) (n' + 1)).2 + 1 - 1) =
                i + 1 + ((fetchLoop api c (i + 1) (n' + 1)).2 - 1) from by omega]
            exact h3 (by omega)

/-- When the first n requests return non-empty pages with continuation
tokens and request n fails, the loop returns exactly the records of those n
pages, in page order, having issued n + 1 requests. -/
theorem fetchLoop_fail_after (api : Nat → FetchResult) (c : Int)
    (pages : Nat → ApiPage) :
    ∀ n i rem, n < rem →
      (∀ j, j < n → api (i + j) = .success (pages (i + j)) ∧
        (pages (i + j)).studies ≠ [] ∧ (pages (i + j)).nextPageToken ≠ none) →
      api (i + n) = .failure →
      fetchLoop api c i rem =
        (((List.range n).map fun j => pageRecords c (pages (i + j)).studies).flatten,
         n + 1) := by
  intro n
  induction n with
  | zero =>
    intro i rem hrem _ hfail
    obtain ⟨r', rfl⟩ : ∃ r', rem = r' + 1 := ⟨rem - 1, by omega⟩
    rw [fetchLoop]
    rw [show api i = .failure from by simpa using hfail]
    simp
  | succ n ih =>
    intro i rem hrem hgood hfail
    obtain ⟨r', rfl⟩ : ∃ r', rem = r' + 1 := ⟨rem - 1, by omega⟩
    obtain ⟨h0, hS, hT⟩ := by simpa using hgood 0 (by omega)
    obtain ⟨t, ht⟩ : ∃ t, (pages i).nextPageToken = some t := by
      cases htok : (pages i).nextPageToken
      · exact absurd htok hT
      · exact ⟨_, rfl⟩
    rw [fetchLoop, h0]
    dsimp only
    rw [if_neg (by simpa using hS), ht]
    rw [ih (i + 1) r' (by omega)
      (fun j hj => by
        have := hgood (j + 1) (by omega)
        rwa [show i + (j + 1) = i + 1 + j from by omega] at this)
      (by rwa [show i + 1 + n = i + (n + 1) from by omega])]
    have harith : ∀ j : Nat, i + 1 + j = i + (j + 1) := fun j => by omega
    rw [List.range_succ_eq_map]
    simp only [List.map_cons, List.map_map, List.flatten_cons, Function.comp_def,
      Nat.add_zero, harith]

/-- Replacing one successful page by the same page with one study removed
does not change the loop when that study is skipped and the page stays
non-empty. -/
theorem fetchLoop_congr_drop (api api' : Nat → FetchResult) (c : Int)
    (i₀ : Nat) (l₁ l₂ : List Study) (bad : Study) (tok : Option String)
    (hbad : processStudy c bad = none)
    (h : api i₀ = .success ⟨l₁ ++ bad :: l₂, tok⟩)
    (h' : api' i₀ = .success ⟨l₁ ++ l₂, tok⟩)
    (hother : ∀ j, j ≠ i₀ → api' j = api j)
    (hne : l₁ ++ l₂ ≠ []) :
    ∀ rem i, fetchLoop api c i rem = fetchLoop api' c i rem := by
  intro rem
  induction rem with
  | zero => intro i; rfl
  | succ n ih =>
    intro i
    by_cases hi : i = i₀
    · subst hi
      rw [fetchLoop, fetchLoop, h, h']
      dsimp only
      rw [if_neg (by simp), if_neg (by simpa using hne)]
      have hrecs : pageRecords c (l₁ ++ bad :: l₂) = pageRecords c (l₁ ++ l₂) := by
        simp only [pageRecords, List.filterMap_append, List.filterMap_cons, hbad]
      cases tok
      · rw [hrecs]
      · rw [hrecs, ih (i + 1)]
    · rw [fetchLoop, fetchLoop, hother i hi]
      cases api i
      · rfl
      · dsimp only
        rw [ih (i + 1)]

/-- Lookup skips a head entry whose key differs from the one sought. -/
theorem lookup_cons_of_ne {t k : String} {b : List TrialRecord}
    {es : List (String × List TrialRecord)} (h : t ≠ k) :
    List.lookup t ((k, b) :: es) = List.lookup t es := by
  rw [List.lookup_cons, show (t == k) = false from beq_eq_false_iff_ne.mpr h]

/-- The rewrite of entries with key k leaves lookups of other keys alone. -/
theorem lookup_map_ne (t k : String) (v : List TrialRecord) (htk : t ≠ k) :
    ∀ m : List (String × List TrialRecord),
      List.lookup t (m.map (fun p => if p.1 = k then (k, v) else p)) =
        List.lookup t m := by
  intro m
  induction m with
  | nil => rfl
  | cons a m' ih =>
    obtain ⟨a1, a2⟩ := a
    simp only [List.map_cons]
    by_cases hak : a1 = k
    · rw [if_pos hak, lookup_cons_of_ne htk,
        lookup_cons_of_ne (show t ≠ a1 from hak ▸ htk)]
      exact ih
    · rw [if_neg hak]
      by_cases hta : t = a1
      · subst hta
        rw [List.lookup_cons_self, List.lookup_cons_self]
      · rw [lookup_cons_of_ne hta, lookup_cons_of_ne hta]
        exact ih

/-- Overwriting the entries holding a present key k makes lookup of k give
the new value and leaves other lookups alone. -/
theorem lookup_map_overwrite (t k : String) (v : List TrialRecord) :
    ∀ m : List (String × List TrialRecord),
      m.any (fun p => p.1 = k) = true →
      List.lookup t (m.map (fun p => if p.1 = k then (k, v) else p)) =
        if t = k then some v else List.lookup t m := by
  intro m
  induction m with
  | nil => intro hany; simp at hany
  | cons a m' ih =>
    obtain ⟨a1, a2⟩ := a
    intro hany
    simp only [List.any_cons, Bool.or_eq_true, decide_eq_true_eq] at hany
    simp only [List.map_cons]
    by_cases hak : a1 = k
    · rw [if_pos hak]
      by_cases htk : t = k
      · subst htk
        rw [List.lookup_cons_self, if_pos rfl]
      · rw [lookup_cons_of_ne htk, lookup_map_ne t k v htk m', if_neg htk,
          lookup_cons_of_ne (show t ≠ a1 from fun hh => htk (hak ▸ hh))]
    · rw [if_neg hak]
      have hany' : m'.any (fun p => p.1 = k) = true := by
        rcases hany with h | h
        · exact absurd h hak
        · simpa using h
      by_cases hta : t = a1
      · subst hta
        rw [List.lookup_cons_self, if_neg (fun hh => hak hh.symm.symm),
          List.lookup_cons_self]
      · rw [lookup_cons_of_ne hta, lookup_cons_of_ne hta, ih hany']

/-- Lookup after a Python dict assignment d[k] = v. -/
theorem lookup_dictInsert (t k : String) (v : List TrialRecord)
    (m : List (String × List TrialRecord)) :
    List.lookup t (dictInsert m k v) =
      if t = k then some v else List.lookup t m := by
  unfold dictInsert
  split
  · exact lookup_map_overwrite t k v m (by assumption)
  · rename_i hany
    rw [List.lookup_append]
    by_cases htk : t = k
    · subst htk
      have hnone : List.lookup t m = none := by
        rw [List.lookup_eq_none_iff]
        intro p hp
        by_contra hcon
        simp only [bne_iff_ne, ne_eq, not_not] at hcon
        exact hany (List.any_eq_true.mpr ⟨p, hp, by simp [hcon]⟩)
      rw [hnone, if_pos rfl, List.lookup_cons_self]
      rfl
    · rw [if_neg htk, lookup_cons_of_ne htk]
      simp

/-- Lookup in the dict built by the per-term loop of search_trials: each
term of the list maps to the value the per-term function gives it. -/
theorem lookup_foldl_dictInsert (f : String → List TrialRecord) (t : String) :
    ∀ (terms : List String) (m : List (String × List TrialRecord)),
      List.lookup t
          (terms.foldl (fun acc term => dictInsert acc term (f term)) m) =
        if t ∈ terms then some (f t) else List.lookup t m := by
  intro terms
  induction terms with
  | nil => intro m; simp
  | cons term terms' ih =>
    intro m
    rw [List.foldl_cons, ih]
    by_cases h1 : t ∈ terms'
    · simp [h1, List.mem_cons]
    · by_cases h2 : t = term
      · subst h2
        simp [h1, lookup_dictInsert, List.mem_cons]
      · simp [h1, h2, lookup_dictInsert, List.mem_cons]

/-- C1: every record returned by fetch_trials_from_clinicaltrials_gov has a
"Last Update Post Date" that parses as YYYY-MM-DD, and the parsed date is on
or after the recency cutoff today - 30*months_back days. -/
theorem C1_output_dates_meet_cutoff (api : Nat → FetchResult)
    (today months_back : Int) (r : TrialRecord)
    (hr : r ∈ fetch_trials_from_clinicaltrials_gov api today months_back) :
    ∃ d, parseDateYMD r.lastUpdatePostDate = some d ∧
      today - 86400 * (30 * months_back) ≤ dateValue d := by
  have hr' : r ∈ (fetchLoop api (trialsCutoff today months_back) 0 max_pages).1 := by
    have hperm := sortByLastUpdateDesc_perm
      (fetchLoop api (trialsCutoff today months_back) 0 max_pages).1
    exact hperm.mem_iff.mp hr
  obtain ⟨s, hs⟩ := mem_fetchLoop hr'
  obtain ⟨d, hparse, hcut⟩ := processStudy_some hs
  exact ⟨d, hparse, by simpa [trialsCutoff] using hcut⟩

/-- C2: the returned list is sorted in non-increasing order of the sort key,
the sort key of every returned record is the value of its parsed
"Last Update Post Date", the returned list is a permutation of the collected
list, and for every key value the subsequence of records with that key is
exactly as collected (stable tie-break). -/
theorem C2_sorted_stable (api : Nat → FetchResult) (today months_back : Int) :
    List.Pairwise (fun a b => get_sort_key b ≤ get_sort_key a)
        (fetch_trials_from_clinicaltrials_gov api today months_back) ∧
    (∀ r ∈ fetch_trials_from_clinicaltrials_gov api today months_back,
      ∃ d, parseDateYMD r.lastUpdatePostDate = some d ∧
        get_sort_key r = dateValue d) ∧
    List.Perm (fetch_trials_from_clinicaltrials_gov api today months_back)
      (collectedTrials api today months_back) ∧
    (∀ k : Int,
      (fetch_trials_from_clinicaltrials_gov api today months_back).filter
          (fun r => decide (get_sort_key r = k)) =
        (collectedTrials api today months_back).filter
          (fun r => decide (get_sort_key r = k))) := by
  refine ⟨sortByLastUpdateDesc_pairwise _, ?_, sortByLastUpdateDesc_perm _, ?_⟩
  · intro r hr
    have hr' : r ∈ (fetchLoop api (trialsCutoff today months_back) 0 max_pages).1 :=
      (sortByLastUpdateDesc_perm _).mem_iff.mp hr
    obtain ⟨s, hs⟩ := mem_fetchLoop hr'
    obtain ⟨d, hparse, _⟩ := processStudy_some hs
    exact ⟨d, hparse, by simp [get_sort_key, hparse]⟩
  · intro k
    exact sortByLastUpdateDesc_filter _ k

/-- C3: when the first n requests succeed with non-empty pages carrying
continuation tokens and request n fails (any caught exception), the pipeline
returns normally: its output is exactly the records of the n prior pages,
filtered and sorted; no exception escapes since the function is total. -/
theorem C3_failure_returns_prior_pages (api : Nat → FetchResult)
    (today months_back : Int) (pages : Nat → ApiPage) (n : Nat)
    (hn : n < max_pages)
    (hgood : ∀ j, j < n → api j = .success (pages j) ∧
      (pages j).studies ≠ [] ∧ (pages j).nextPageToken ≠ none)
    (hfail : api n = .failure) :
    fetch_trials_from_clinicaltrials_gov api today months_back =
      sortByLastUpdateDesc
        (((List.range n).map fun j =>
          pageRecords (trialsCutoff today months_back) (pages j).studies).flatten) := by
  unfold fetch_trials_from_clinicaltrials_gov
  have h := fetchLoop_fail_after api (trialsCutoff today months_back) pages n 0
    max_pages hn
    (fun j hj => by simpa using hgood j hj)
    (by simpa using hfail)
  rw [h]
  simp

/-- C4: the pagination loop always issues at most max_pages = 5 requests,
whatever the upstream does; when the upstream never fails, at least one
request is made, no page before the last requested one is empty or
token-free, and when fewer than 5 requests were made the last requested page
is empty or token-free: the loop terminates exactly at the first stopping
page or at the 5-page ceiling. -/
theorem C4_pagination_bounded (api : Nat → FetchResult) (c : Int) :
    fetchRequestCount api c ≤ 5 ∧
    (∀ pages : Nat → ApiPage, (∀ j, api j = .success (pages j)) →
      1 ≤ fetchRequestCount api c ∧
      (∀ m, m < fetchRequestCount api c - 1 → ¬ stopsAt pages m) ∧
      (fetchRequestCount api c < 5 → stopsAt pages (fetchRequestCount api c - 1))) := by
  constructor
  · simpa [fetchRequestCount, max_pages] using fetchLoop_count_le api c max_pages 0
  · intro pages hall
    have h := fetchLoop_count_success api c pages hall max_pages 0 (by decide)
    simpa [fetchRequestCount, max_pages] using h

/-- C5: with at least one valid condition term, search_trials answers with a
mapping holding an entry for every distinct cleaned term, and the entry of
each term is the pipeline result computed from the upstream environment of
that term alone, so a fetch failure of one term cannot affect the entry of
another term. -/
theorem C5_per_term_independence (items : List JsonItem) (mb : Option Int)
    (apiFor : String → Nat → FetchResult) (today : Int)
    (hne : cleanTerms items ≠ []) :
    ∃ m, search_trials ⟨some (.list items), mb⟩ apiFor today = .ok m ∧
      ∀ t, t ∈ cleanTerms items →
        List.lookup t m =
          some (fetch_trials_from_clinicaltrials_gov (apiFor t) today
            (mb.getD 3)) := by
  refine ⟨(cleanTerms items).foldl
    (fun acc term =>
      dictInsert acc term
        (fetch_trials_from_clinicaltrials_gov (apiFor term) today (mb.getD 3)))
    [], ?_, ?_⟩
  · simp only [search_trials, Option.getD_some]
    rw [if_neg (by simpa [List.isEmpty_iff] using hne)]
  · intro t ht
    rw [lookup_foldl_dictInsert
      (fun term =>
        fetch_trials_from_clinicaltrials_gov (apiFor term) today (mb.getD 3))
      t (cleanTerms items) [], if_pos ht]

/-- C6: a study whose last-update date string is missing (empty) or
unparseable is silently dropped: the per-study body yields none, the other
records of the page are still kept, and the whole fetch behaves as if the study
were absent, so later records and pages are still processed. -/
theorem C6_malformed_record_dropped (c : Int) (bad : Study)
    (hbad : lastUpdateStr bad = "" ∨ parseDateYMD (lastUpdateStr bad) = none) :
    processStudy c bad = none ∧
    (∀ l₁ l₂, pageRecords c (l₁ ++ bad :: l₂) =
      pageRecords c l₁ ++ pageRecords c l₂) ∧
    (∀ (api api' : Nat → FetchResult) (i₀ : Nat) (l₁ l₂ : List Study)
      (tok : Option String),
      api i₀ = .success ⟨l₁ ++ bad :: l₂, tok⟩ →
      api' i₀ = .success ⟨l₁ ++ l₂, tok⟩ →
      (∀ j, j ≠ i₀ → api' j = api j) →
      l₁ ++ l₂ ≠ [] →
      ∀ rem i, fetchLoop api c i rem = fetchLoop api' c i rem) := by
  have h1 : processStudy c bad = none := by
    simp only [processStudy]
    rcases hbad with h | h
    · rw [if_pos (by simpa [lastUpdateStr] using h)]
    · split
      · rfl
      · have h' : parseDateYMD ((((bad.protocolSection.getD
            {}).statusModule.getD {}).lastUpdatePostDateStruct.getD
            {}).date.getD "") = none := h
        rw [h']
  refine ⟨h1, ?_, ?_⟩
  · intro l₁ l₂
    simp [pageRecords, List.filterMap_append, List.filterMap_cons, h1]
  · intro api api' i₀ l₁ l₂ tok h h' hother hne
    exact fetchLoop_congr_drop api api' c i₀ l₁ l₂ bad tok h1 h h' hother hne

/-- C7: a record whose date fails to re-parse at sort time gets the minimum
key datetime.min: it stays in the sorted output (counts preserved) and the
output decomposes into the records with key above datetime.min followed by
a final block, containing the record, in which every key is exactly
datetime.min - it is placed at the end, never ahead of a newer record. -/
theorem C7_unparseable_sorts_last (l : List TrialRecord) (r : TrialRecord)
    (hr : r ∈ l) (hbad : parseDateYMD r.lastUpdatePostDate = none) :
    get_sort_key r = datetime_min ∧
    (∀ q, (sortByLastUpdateDesc l).count q = l.count q) ∧
    ∃ l₁ l₂, sortByLastUpdateDesc l = l₁ ++ l₂ ∧ r ∈ l₂ ∧
      (∀ q ∈ l₂, get_sort_key q = datetime_min) ∧
      (∀ q ∈ l₁, datetime_min < get_sort_key q) := by
  have hkey : get_sort_key r = datetime_min := by
    simp [get_sort_key, hbad]
  refine ⟨hkey, fun q => (sortByLastUpdateDesc_perm l).count_eq q, ?_⟩
  refine ⟨(sortByLastUpdateDesc l).takeWhile
      (fun x => decide (datetime_min < get_sort_key x)),
    (sortByLastUpdateDesc l).dropWhile
      (fun x => decide (datetime_min < get_sort_key x)),
    (List.takeWhile_append_dropWhile _ _).symm, ?_, ?_, ?_⟩
  · have hmem : r ∈ sortByLastUpdateDesc l :=
      (sortByLastUpdateDesc_perm l).mem_iff.mpr hr
    rw [← List.takeWhile_append_dropWhile
      (fun x => decide (datetime_min < get_sort_key x))
      (sortByLastUpdateDesc l)] at hmem
    rcases List.mem_append.mp hmem with h1 | h2
    · have hp := List.mem_takeWhile_imp h1
      rw [hkey] at hp
      simp at hp
    · exact h2
  · exact fun q hq => sorted_min_suffix _ (sortByLastUpdateDesc_pairwise l) q hq
  · intro q hq
    simpa using List.mem_takeWhile_imp hq

/-- C8: the Title of every kept record is the officialTitle of the study
when that key is present, else its briefTitle when present, else the
placeholder string. -/
theorem C8_title_fallback (c : Int) (s : Study) (r : TrialRecord)
    (h : processStudy c s = some r) :
    (∀ t, ((s.protocolSection.getD {}).identificationModule.getD
        {}).officialTitle = some t → r.title = t) ∧
    (((s.protocolSection.getD {}).identificationModule.getD
        {}).officialTitle = none →
      ∀ b, ((s.protocolSection.getD {}).identificationModule.getD
        {}).briefTitle = some b → r.title = b) ∧
    (((s.protocolSection.getD {}).identificationModule.getD
        {}).officialTitle = none →
      ((s.protocolSection.getD {}).identificationModule.getD
        {}).briefTitle = none →
      r.title = "No title provided") := by
  simp only [processStudy] at h
  split at h
  · cases h
  · split at h
    · cases h
    · split at h
      · cases h
      · cases h
        refine ⟨?_, ?_, ?_⟩
        · intro t ht; simp [ht]
        · intro hofficial b hb; simp [hofficial, hb]
        · intro hofficial hbrief; simp [hofficial, hbrief]

/-- C9: a request whose query_terms key is absent, or holds a list with no
valid term (every element a non-string or blank after stripping), gets the
400 error with the descriptive message, and the response is independent of
the upstream environment: the pipeline is never invoked. -/
theorem C9_empty_terms_rejected (payload : SearchPayload)
    (apiFor apiFor' : String → Nat → FetchResult) (today today' : Int)
    (h : payload.query_terms = none ∨
      ∃ items, payload.query_terms = some (.list items) ∧ cleanTerms items = []) :
    search_trials payload apiFor today =
      .error 400 "Please enter valid condition(s) to search." ∧
    search_trials payload apiFor today = search_trials payload apiFor' today' := by
  have herr : ∀ (g : String → Nat → FetchResult) (d : Int),
      search_trials payload g d =
        .error 400 "Please enter valid condition(s) to search." := by
    intro g d
    rcases h with hqt | ⟨items, hqt, hclean⟩
    · simp [search_trials, hqt, cleanTerms]
    · simp [search_trials, hqt, hclean]
  exact ⟨herr apiFor today, by rw [herr apiFor today, herr apiFor' today']⟩

/-- C10: every record the loop collects stores the very date string that
already parsed during filtering, so its re-parse at sort time succeeds and
get_sort_key takes the parsed-date branch: the ValueError fallback returning
datetime.min is unreachable on the own data of the pipeline. -/
theorem C10_sort_fallback_unreachable (api : Nat → FetchResult)
    (today months_back : Int) (r : TrialRecord)
    (hr : r ∈ collectedTrials api today months_back) :
    ∃ d, parseDateYMD r.lastUpdatePostDate = some d ∧
      get_sort_key r = dateValue d := by
  obtain ⟨s, hs⟩ := mem_fetchLoop hr
  obtain ⟨d, hparse, _⟩ := processStudy_some hs
  exact ⟨d, hparse, by simp [get_sort_key, hparse]⟩

/-- A fully-populated study used as a concrete test fixture. -/
def wStudy : Study where
  protocolSection := some
    { statusModule := some
        { lastUpdatePostDateStruct := some { date := some "2024-03-01" }
          overallStatus := some "Recruiting"
          studyFirstPostDateStruct := some { date := some "2020-01-01" } }
      identificationModule := some
        { nctId := some "NCT00000001"
          officialTitle := some "Official Study Title"
          briefTitle := some "Brief Study Title"
          acronym := some "OST" }
      conditionsModule := some { conditions := some ["Diabetes"] }
      armsInterventionsModule := some
        { interventions := some [{ name := some "Metformin" }] }
      designModule := some
        { studyType := some "Interventional", phases := some ["Phase 2"] } }

/-- The record the pipeline builds from wStudy. -/
def wRecord : TrialRecord :=
  ⟨"NCT00000001", "Official Study Title", "2020-01-01", "2024-03-01", "OST",
   "Recruiting", "Diabetes", "Metformin", "Interventional", "Phase 2"⟩

/-- A study whose last-update date string is not a date. -/
def wBadStudy : Study where
  protocolSection := some
    { statusModule := some
        { lastUpdatePostDateStruct := some { date := some "not-a-date" } } }

/-- A record whose stored date string is not a date. -/
def wBadRecord : TrialRecord :=
  ⟨"N/A", "No title provided", "N/A", "not-a-date", "N/A", "N/A",
   "No conditions listed", "No interventions listed", "N/A", "Not Available"⟩

/-- A concrete value of datetime.today(): midnight of 2024-04-01. -/
def wToday : Int := dateValue ⟨2024, 4, 1⟩

/-- An upstream returning one single-study page with no token. -/
def wApi : Nat → FetchResult := fun _ => .success ⟨[wStudy], none⟩

/-- The loop on wApi collects exactly wRecord. -/
theorem wCollected_eq : collectedTrials wApi wToday 3 = [wRecord] := by decide

/-- The pipeline on wApi returns exactly wRecord. -/
theorem wFetch_eq :
    fetch_trials_from_clinicaltrials_gov wApi wToday 3 = [wRecord] := by
  unfold fetch_trials_from_clinicaltrials_gov
  rw [show (fetchLoop wApi (trialsCutoff wToday 3) 0 max_pages).1 = [wRecord]
    from wCollected_eq]
  simp [sortByLastUpdateDesc, List.mergeSort_singleton]

/-- Witness for C1 at a concrete upstream, date and window. -/
theorem C1_witness :
    ∃ d, parseDateYMD wRecord.lastUpdatePostDate = some d ∧
      wToday - 86400 * (30 * 3) ≤ dateValue d :=
  C1_output_dates_meet_cutoff wApi wToday 3 wRecord
    (by rw [wFetch_eq]; exact List.mem_singleton.mpr rfl)

/-- Witness for C2 at a concrete upstream. -/
theorem C2_witness :
    List.Pairwise (fun a b => get_sort_key b ≤ get_sort_key a)
        (fetch_trials_from_clinicaltrials_gov wApi wToday 3) ∧
    (∀ k : Int,
      (fetch_trials_from_clinicaltrials_gov wApi wToday 3).filter
          (fun r => decide (get_sort_key r = k)) =
        (collectedTrials wApi wToday 3).filter
          (fun r => decide (get_sort_key r = k))) :=
  ⟨(C2_sorted_stable wApi wToday 3).1, (C2_sorted_stable wApi wToday 3).2.2.2⟩

/-- An upstream whose first request succeeds with a token and whose second
request fails. -/
def wApiFail : Nat → FetchResult := fun i =>
  if i = 0 then .success ⟨[wStudy], some "tok"⟩ else .failure

/-- The pages of wApiFail. -/
def wPages : Nat → ApiPage := fun _ => ⟨[wStudy], some "tok"⟩

/-- Witness for C3: a failure on the second request yields the sorted
records of the first page. -/
theorem C3_witness :
    fetch_trials_from_clinicaltrials_gov wApiFail wToday 3 =
      sortByLastUpdateDesc
        (((List.range 1).map fun j =>
          pageRecords (trialsCutoff wToday 3) (wPages j).studies).flatten) :=
  C3_failure_returns_prior_pages wApiFail wToday 3 wPages 1 (by decide)
    (fun j hj => by
      have hj0 : j = 0 := by omega
      subst hj0
      exact ⟨rfl, by decide, by decide⟩)
    rfl

/-- An upstream that always answers a non-empty page with a token. -/
def wApiEndless : Nat → FetchResult := fun _ => .success ⟨[wStudy], some "tok"⟩

/-- The pages of wApiEndless. -/
def wPagesEndless : Nat → ApiPage := fun _ => ⟨[wStudy], some "tok"⟩

/-- Witness for C4 on an upstream with endlessly many pages. -/
theorem C4_witness :
    fetchRequestCount wApiEndless 0 ≤ 5 ∧
    1 ≤ fetchRequestCount wApiEndless 0 ∧
    (∀ m, m < fetchRequestCount wApiEndless 0 - 1 → ¬ stopsAt wPagesEndless m) ∧
    (fetchRequestCount wApiEndless 0 < 5 →
      stopsAt wPagesEndless (fetchRequestCount wApiEndless 0 - 1)) :=
  ⟨(C4_pagination_bounded wApiEndless 0).1,
    (C4_pagination_bounded wApiEndless 0).2 wPagesEndless (fun _ => rfl)⟩

/-- A two-term request with some junk entries. -/
def wItems : List JsonItem :=
  [.str "diabetes", .str "   ", .nonStr, .str "cancer"]

/-- A per-term upstream where diabetes succeeds and cancer fails. -/
def wApiFor : String → Nat → FetchResult := fun t =>
  if t = "diabetes" then wApi else fun _ => .failure

/-- Witness for C5 at a concrete two-term request with one failing term. -/
theorem C5_witness :
    ∃ m, search_trials ⟨some (.list wItems), none⟩ wApiFor wToday = .ok m ∧
      ∀ t, t ∈ cleanTerms wItems →
        List.lookup t m =
          some (fetch_trials_from_clinicaltrials_gov (wApiFor t) wToday
            ((none : Option Int).getD 3)) :=
  C5_per_term_independence wItems none wApiFor wToday (by decide)

/-- Witness for C6 at a study with an unparseable date. -/
theorem C6_witness :
    processStudy 0 wBadStudy = none ∧
    (∀ l₁ l₂, pageRecords 0 (l₁ ++ wBadStudy :: l₂) =
      pageRecords 0 l₁ ++ pageRecords 0 l₂) ∧
    (∀ (api api' : Nat → FetchResult) (i₀ : Nat) (l₁ l₂ : List Study)
      (tok : Option String),
      api i₀ = .success ⟨l₁ ++ wBadStudy :: l₂, tok⟩ →
      api' i₀ = .success ⟨l₁ ++ l₂, tok⟩ →
      (∀ j, j ≠ i₀ → api' j = api j) →
      l₁ ++ l₂ ≠ [] →
      ∀ rem i, fetchLoop api 0 i rem = fetchLoop api' 0 i rem) :=
  C6_malformed_record_dropped 0 wBadStudy (Or.inr (by decide))

/-- Witness for C7 at a two-record list led by the unparseable record. -/
theorem C7_witness :
    get_sort_key wBadRecord = datetime_min ∧
    (∀ q, (sortByLastUpdateDesc [wBadRecord, wRecord]).count q =
      [wBadRecord, wRecord].count q) ∧
    ∃ l₁ l₂, sortByLastUpdateDesc [wBadRecord, wRecord] = l₁ ++ l₂ ∧
      wBadRecord ∈ l₂ ∧
      (∀ q ∈ l₂, get_sort_key q = datetime_min) ∧
      (∀ q ∈ l₁, datetime_min < get_sort_key q) :=
  C7_unparseable_sorts_last [wBadRecord, wRecord] wBadRecord
    (List.mem_cons_self _ _) (by decide)

/-- Witness for C8 at the fully-populated study. -/
theorem C8_witness :
    (∀ t, ((wStudy.protocolSection.getD {}).identificationModule.getD
        {}).officialTitle = some t → wRecord.title = t) ∧
    (((wStudy.protocolSection.getD {}).identificationModule.getD
        {}).officialTitle = none →
      ∀ b, ((wStudy.protocolSection.getD {}).identificationModule.getD
        {}).briefTitle = some b → wRecord.title = b) ∧
    (((wStudy.protocolSection.getD {}).identificationModule.getD
        {}).officialTitle = none →
      ((wStudy.protocolSection.getD {}).identificationModule.getD
        {}).briefTitle = none →
      wRecord.title = "No title provided") :=
  C8_title_fallback (trialsCutoff wToday 3) wStudy wRecord (by decide)

/-- A payload whose term list has no valid entry. -/
def wEmptyPayload : SearchPayload := ⟨some (.list [.str "   ", .nonStr]), none⟩

/-- Witness for C9 at a payload with only blank and non-string terms. -/
theorem C9_witness :
    search_trials wEmptyPayload (fun _ _ => .failure) wToday =
      .error 400 "Please enter valid condition(s) to search." ∧
    search_trials wEmptyPayload (fun _ _ => .failure) wToday =
      search_trials wEmptyPayload (fun _ => wApi) 0 :=
  C9_empty_terms_rejected wEmptyPayload (fun _ _ => .failure) (fun _ => wApi)
    wToday 0 (Or.inr ⟨[.str "   ", .nonStr], rfl, by decide⟩)

/-- Witness for C10 at the concrete collected record. -/
theorem C10_witness :
    ∃ d, parseDateYMD wRecord.lastUpdatePostDate = some d ∧
      get_sort_key wRecord = dateValue d :=
  C10_sort_fallback_unreachable wApi wToday 3 wRecord
    (by rw [wCollected_eq]; exact List.mem_singleton.mpr rfl)
